import Mathlib

/-!
Shallow embedding of the database-backed job queue in `dental_agents/db.py`
and the worker control loop in `dental_agents/worker.py`.

The MySQL `agent_events` table is modelled as a `List EventRow`; the wall
clock `NOW()` is an explicit `Nat` parameter (seconds).  Each SQL statement
of the source becomes a pure function on the list: `SELECT ... ORDER BY
priority ASC, id ASC LIMIT 1 FOR UPDATE` becomes a lexicographic minimum
over the rows passing the `WHERE` filter, and `UPDATE ... WHERE id = %s`
becomes a `List.map` guarded on the `id` field.  All optional columns probed
by `_has_column` are taken to exist, matching the schema that
`ensure_schema` itself creates.
-/

namespace DentalAgents

/-- The `status` ENUM of the `agent_events` table. -/
inductive Status where
  | NEW
  | PENDING
  | PROCESSING
  | DONE
  | FAILED
deriving DecidableEq, Repr

/-- One row of the `agent_events` table (the columns the queue engine touches). -/
structure EventRow where
  id : Nat
  event_type : String
  payload_json : Option String
  status : Status
  priority : Int
  attempts : Nat
  max_attempts : Nat
  available_at : Nat
  locked_by : Option String
  locked_at : Option Nat
  last_error : Option String
  done_at : Option Nat
  updated_at : Nat
deriving DecidableEq, Repr

/-- Modelled from the spec: `dental_agents/config.py` is imported by `db.py`
and `worker.py` but is not among the source files; the spec names these
deployment constants (worker identity, lease TTL, default max attempts), so
they are carried as explicit parameters. -/
structure Config where
  WORKER_ID : String
  LOCK_TTL_SECONDS : Nat
  MAX_EVENT_ATTEMPTS : Nat
deriving DecidableEq, Repr

/-- The lease-staleness disjunct of `lock_next_event`'s WHERE clause:
`locked_at IS NULL OR locked_at < DATE_SUB(NOW(), INTERVAL ttl SECOND)`. -/
def staleLock (cfg : Config) (now : Nat) (locked_at : Option Nat) : Bool :=
  match locked_at with
  | none => true
  | some t => decide (t + cfg.LOCK_TTL_SECONDS < now)

/-- The full WHERE clause of the claiming SELECT in `lock_next_event`:
`status IN ('NEW','PENDING') AND available_at <= NOW() AND (locked_at IS
NULL OR locked_at < DATE_SUB(NOW(), INTERVAL ttl SECOND))`. -/
def isEligible (cfg : Config) (now : Nat) (r : EventRow) : Bool :=
  (r.status == .NEW || r.status == .PENDING)
    && decide (r.available_at ≤ now)
    && staleLock cfg now r.locked_at

/-- Strict comparison realising `ORDER BY priority ASC, id ASC`. -/
def better (a b : EventRow) : Bool :=
  decide (a.priority < b.priority)
    || (a.priority == b.priority && decide (a.id < b.id))

/-- `SELECT ... ORDER BY priority ASC, id ASC LIMIT 1`: the lexicographic
minimum of the candidate rows, `none` when there is no candidate. -/
def selectBest (rs : List EventRow) : Option EventRow :=
  match rs with
  | [] => none
  | r :: rest => some (rest.foldl (fun best x => if better x best then x else best) r)

/-- The claiming UPDATE of `lock_next_event`: `status='PROCESSING',
attempts = attempts + 1, locked_by = %s, locked_at = NOW(), updated_at = NOW()`. -/
def claimRow (cfg : Config) (now : Nat) (r : EventRow) : EventRow :=
  { r with
      status := .PROCESSING
      attempts := r.attempts + 1
      locked_by := some cfg.WORKER_ID
      locked_at := some now
      updated_at := now }

/-- `lock_next_event(conn)`: select the best eligible row, claim it, and
re-read it; returns the re-read row (or `none`) together with the table
after the update. -/
def lock_next_event (cfg : Config) (db : List EventRow) (now : Nat) :
    Option EventRow × List EventRow :=
  match selectBest (db.filter (isEligible cfg now)) with
  | none => (none, db)
  | some r =>
      let db2 := db.map (fun x => if x.id = r.id then claimRow cfg now x else x)
      (db2.find? (fun x => x.id == r.id), db2)

/-- `mark_done(conn, event_id)`: `UPDATE agent_events SET status='DONE',
done_at=NOW(), locked_by=NULL, locked_at=NULL, updated_at=NOW() WHERE id=%s`. -/
def mark_done (db : List EventRow) (now : Nat) (eid : Nat) : List EventRow :=
  db.map fun r =>
    if r.id = eid then
      { r with
          status := .DONE
          done_at := some now
          locked_by := none
          locked_at := none
          updated_at := now }
    else r

/-- The backoff computed inline in `mark_failed`:
`min(600, max(10, (2 ** min(attempts, 8)) * 5))`. -/
def backoff (attempts : Nat) : Nat :=
  min 600 (max 10 ((2 ^ min attempts 8) * 5))

/-- The backoff policy as the spec words it: `clamp(2^min(n,8) * 5,
lower=10, upper=600)`, i.e. the value raised to the floor 10 and lowered to
the cap 600. -/
def backoff_spec (n : Nat) : Nat :=
  min (max ((2 ^ min n 8) * 5) 10) 600

/-- `mark_failed(conn, event_id, error_text)`: read `attempts` and
`max_attempts` of the row (a missing row reads as `attempts = 0` and the
configured default, via `r.get(...) or fallback` — note the Python `or`
also sends a stored 0 to the fallback); then either the terminal FAILED
update or the retry update re-scheduling the row `backoff` seconds ahead. -/
def mark_failed (cfg : Config) (db : List EventRow) (now : Nat) (eid : Nat)
    (error_text : String) : List EventRow :=
  let read := db.find? (fun r => r.id == eid)
  let attempts : Nat := match read with
    | some r => r.attempts
    | none => 0
  let maxAtt : Nat := match read with
    | some r => if r.max_attempts = 0 then cfg.MAX_EVENT_ATTEMPTS else r.max_attempts
    | none => cfg.MAX_EVENT_ATTEMPTS
  if maxAtt ≤ attempts then
    db.map fun r =>
      if r.id = eid then
        { r with
            status := .FAILED
            last_error := some error_text
            locked_by := none
            locked_at := none
            updated_at := now }
      else r
  else
    db.map fun r =>
      if r.id = eid then
        { r with
            status := .NEW
            last_error := some error_text
            locked_by := none
            locked_at := none
            available_at := now + backoff attempts
            updated_at := now }
      else r

/-- One row of the `idempotency_locks` table (`lock_key` is the primary key). -/
structure LockRow where
  lock_key : String
  locked_by : String
  expires_at : Nat
  updated_at : Nat
deriving DecidableEq, Repr

/-- Modelled from the spec: `dental_agents/idempotency.py` (the `claim`
function imported by `worker.py`) is not among the source files.  Per the
spec, `claim(key, ttlSeconds)` fails when a row for `key` exists with
`expires_at > now`; an expired row is re-armed with the caller's identity
and `expires_at = now + ttl`; an absent row is inserted; the latter two
cases succeed. -/
def idem_claim (locks : List LockRow) (now : Nat) (key worker : String)
    (ttl : Nat) : Bool × List LockRow :=
  match locks.find? (fun l => l.lock_key == key) with
  | some l =>
      if now < l.expires_at then (false, locks)
      else
        (true,
         locks.map fun x =>
           if x.lock_key == key then
             { x with locked_by := worker, expires_at := now + ttl, updated_at := now }
           else x)
  | none =>
      (true,
       locks ++ [{ lock_key := key
                   locked_by := worker
                   expires_at := now + ttl
                   updated_at := now }])

/-- The four module-level agent singletons of `worker.py`. -/
inductive Handler where
  | APPT
  | INV
  | REV
  | CASE
deriving DecidableEq, Repr

/-- Python's `str.startswith`, rendered on the character list. -/
def strStartsWith (s p : String) : Bool :=
  p.data.isPrefixOf s.data

/-- `_dispatch(conn, event_id, event_type, payload)` of `worker.py`, as the
ordered list of handlers it invokes for a given `event_type`. -/
def dispatch_handlers (event_type : String) : List Handler :=
  if event_type = "AppointmentCreated" then [.APPT, .REV]
  else if event_type = "AppointmentCompleted" then [.APPT, .INV, .REV, .CASE]
  else if event_type = "CaseUpdated" || event_type = "CaseGenerateSummary" then [.CASE]
  else if event_type = "AppointmentAutoScheduleRequested"
          || event_type = "AppointmentMonitorTick" then [.APPT]
  else if strStartsWith event_type "Inventory" || event_type = "InventoryDailyTick" then [.INV]
  else if strStartsWith event_type "Revenue" || event_type = "ARRankAndNotify"
          || event_type = "RevenueDailyTick" then [.REV]
  else []

/-- A JSON document, as returned by `json.loads`. -/
inductive Json where
  | null
  | bool (b : Bool)
  | num (n : Int)
  | str (s : String)
  | arr (xs : List Json)
  | obj (fields : List (String × Json))

/-- `_parse_payload(row)` of `worker.py` / `main_worker.py`:
`json.loads(row.get("payload_json") or "\x7b\x7d")` inside a `try`, with
`\x7b\x7d` (the empty document) as the `except` fallback.  `loads` stands
for the external `json.loads`, its exception modelled as `Except.error`. -/
def parse_payload (loads : String → Except String Json)
    (payload_json : Option String) : Json :=
  let s := match payload_json with
    | none => "\x7b\x7d"
    | some s => if s = "" then "\x7b\x7d" else s
  match loads s with
  | .ok j => j
  | .error _ => Json.obj []

/-- The fan-out of `_dispatch` with abortion at the first failing handler:
`fails h payload = some err` models handler `h` raising on that payload. -/
def run_dispatch (fails : Handler → Json → Option String) (event_type : String)
    (payload : Json) : Option String :=
  (dispatch_handlers event_type).findSome? (fun h => fails h payload)

/-- Step 3 of `run_loop` in `worker.py` for one claimed row: parse the
payload, dispatch; on normal return `mark_done`, on a handler exception
`mark_failed` with the captured error text. -/
def process_claimed_event (cfg : Config) (loads : String → Except String Json)
    (fails : Handler → Json → Option String) (db : List EventRow) (now : Nat)
    (row : EventRow) : List EventRow :=
  let payload := parse_payload loads row.payload_json
  match run_dispatch fails row.event_type payload with
  | none => mark_done db now row.id
  | some err => mark_failed cfg db now row.id err

/-! Concrete fixtures used to evaluate the operations on closed inputs. -/

/-- A freshly enqueued event, as `enqueue_event` inserts it (`status NEW`,
`attempts 0`, schema defaults elsewhere). -/
def mkEvent (id : Nat) (ty : String) (prio : Int) : EventRow :=
  { id := id, event_type := ty, payload_json := none, status := .NEW,
    priority := prio, attempts := 0, max_attempts := 8, available_at := 0,
    locked_by := none, locked_at := none, last_error := none, done_at := none,
    updated_at := 0 }

/-- A concrete deployment configuration (60 s lease TTL, default 8 attempts). -/
def cfg0 : Config :=
  { WORKER_ID := "w1", LOCK_TTL_SECONDS := 60, MAX_EVENT_ATTEMPTS := 8 }

/-- Events A, B (priority 10) and C (priority 5), enqueued in that order. -/
def dbABC : List EventRow :=
  [mkEvent 1 "A" 10, mkEvent 2 "B" 10, mkEvent 3 "C" 5]

/-- An event a crashed worker left `PROCESSING` with a long-stale lease. -/
def staleRow : EventRow :=
  { (mkEvent 1 "AppointmentCreated" 50) with
      status := .PROCESSING
      locked_by := some "w_dead"
      locked_at := some 0
      attempts := 1 }

/-- A concrete stand-in for `json.loads`, accepting exactly the empty
document. -/
def loadsW : String → Except String Json := fun s =>
  if s = "\x7b\x7d" then .ok (Json.obj []) else .error "invalid json"

/-! Helper lemmas about the ordering and the id-keyed table operations. -/

theorem better_eq_true_iff (a b : EventRow) :
    better a b = true ↔
      (a.priority < b.priority ∨ (a.priority = b.priority ∧ a.id < b.id)) := by
  simp [better]

theorem better_eq_false_iff (a b : EventRow) :
    better a b = false ↔
      (b.priority < a.priority ∨ (b.priority = a.priority ∧ b.id ≤ a.id)) := by
  simp only [better, Bool.or_eq_false_iff, Bool.and_eq_false_iff,
    decide_eq_false_iff_not, beq_eq_false_iff_ne, ne_eq]
  constructor
  · rintro ⟨h1, h2 | h2⟩ <;> omega
  · intro h
    constructor <;> omega

theorem foldl_best_spec (l : List EventRow) (init : EventRow) :
    (l.foldl (fun best x => if better x best then x else best) init = init ∨
      l.foldl (fun best x => if better x best then x else best) init ∈ l) ∧
    better init (l.foldl (fun best x => if better x best then x else best) init) = false ∧
    ∀ x ∈ l, better x (l.foldl (fun best x => if better x best then x else best) init) = false := by
  induction l generalizing init with
  | nil =>
      refine ⟨Or.inl rfl, ?_, by simp⟩
      simp only [List.foldl_nil]
      rw [better_eq_false_iff]
      omega
  | cons a t ih =>
      simp only [List.foldl_cons]
      by_cases hb : better a init = true
      · rw [if_pos hb]
        obtain ⟨ihmem, ihle, ihall⟩ := ih a
        rw [better_eq_true_iff] at hb
        refine ⟨?_, ?_, ?_⟩
        · rcases ihmem with h | h
          · exact Or.inr (by rw [h]; exact List.mem_cons_self a t)
          · exact Or.inr (List.mem_cons_of_mem a h)
        · rw [better_eq_false_iff] at ihle ⊢
          omega
        · intro x hx
          rcases List.mem_cons.mp hx with h | h
          · subst h
            exact ihle
          · exact ihall x h
      · rw [if_neg hb]
        obtain ⟨ihmem, ihle, ihall⟩ := ih init
        rw [Bool.not_eq_true] at hb
        refine ⟨?_, ihle, ?_⟩
        · rcases ihmem with h | h
          · exact Or.inl h
          · exact Or.inr (List.mem_cons_of_mem a h)
        · intro x hx
          rcases List.mem_cons.mp hx with h | h
          · subst h
            rw [better_eq_false_iff] at hb ihle ⊢
            omega
          · exact ihall x h

theorem selectBest_eq_none_iff (l : List EventRow) :
    selectBest l = none ↔ l = [] := by
  cases l <;> simp [selectBest]

theorem selectBest_spec (l : List EventRow) (r : EventRow)
    (h : selectBest l = some r) :
    r ∈ l ∧ ∀ x ∈ l, better x r = false := by
  cases l with
  | nil => simp [selectBest] at h
  | cons a t =>
      simp only [selectBest, Option.some.injEq] at h
      obtain ⟨hmem, hle, hall⟩ := foldl_best_spec t a
      rw [h] at hmem hle hall
      refine ⟨?_, ?_⟩
      · rcases hmem with h' | h'
        · exact h' ▸ List.mem_cons_self a t
        · exact List.mem_cons_of_mem a h'
      · intro x hx
        rcases List.mem_cons.mp hx with h' | h'
        · exact h' ▸ hle
        · exact hall x h'

theorem find?_id_of_nodup (db : List EventRow) (e : EventRow) (he : e ∈ db)
    (hnd : (db.map (fun r => r.id)).Nodup) :
    db.find? (fun r => r.id == e.id) = some e := by
  induction db with
  | nil => simp at he
  | cons a t ih =>
      simp only [List.map_cons, List.nodup_cons] at hnd
      obtain ⟨hna, hnd⟩ := hnd
      by_cases hae : a.id = e.id
      · have hea : e = a := by
          rcases List.mem_cons.mp he with h | h
          · exact h
          · exact absurd (hae ▸ List.mem_map_of_mem (fun r => r.id) h) hna
        rw [List.find?_cons_of_pos _ (by simp [hae]), hea]
      · have het : e ∈ t := by
          rcases List.mem_cons.mp he with h | h
          · exact absurd (h ▸ rfl) hae
          · exact h
        rw [List.find?_cons_of_neg _ (by simp [hae])]
        exact ih het hnd

theorem find?_update_of_nodup (db : List EventRow) (e : EventRow) (he : e ∈ db)
    (hnd : (db.map (fun r => r.id)).Nodup) (f : EventRow → EventRow)
    (hf : ∀ x, (f x).id = x.id) :
    (db.map fun x => if x.id = e.id then f x else x).find? (fun r => r.id == e.id)
      = some (f e) := by
  induction db with
  | nil => simp at he
  | cons a t ih =>
      simp only [List.map_cons, List.nodup_cons] at hnd
      obtain ⟨hna, hnd⟩ := hnd
      by_cases hae : a.id = e.id
      · have hea : e = a := by
          rcases List.mem_cons.mp he with h | h
          · exact h
          · exact absurd (hae ▸ List.mem_map_of_mem (fun r => r.id) h) hna
        rw [List.map_cons, if_pos hae,
          List.find?_cons_of_pos _ (by simp [hf, hae]), hea]
      · have het : e ∈ t := by
          rcases List.mem_cons.mp he with h | h
          · exact absurd (h ▸ rfl) hae
          · exact h
        rw [List.map_cons, if_neg hae, List.find?_cons_of_neg _ (by simp [hae])]
        exact ih het hnd

theorem map_guard_id (db : List EventRow) (eid : Nat) (g : EventRow → EventRow)
    (h : ∀ r ∈ db, r.id ≠ eid) :
    (db.map fun r => if r.id = eid then g r else r) = db := by
  conv_rhs => rw [← List.map_id db]
  exact List.map_congr_left fun r hr => by simp [h r hr]

/-- C1: the spec promises lease reclamation — an event left `PROCESSING`
with a stale lease becomes claimable once the TTL elapses.  The WHERE
clause of `lock_next_event` requires `status IN ('NEW','PENDING')`, so a
`PROCESSING` row is never eligible no matter how stale its lease: here the
lease started at time 0 with a 60-second TTL, the claim is attempted at
time 10000, and `lock_next_event` still returns `none` and leaves the
table untouched. -/
theorem claim_C1_stale_processing_never_reclaimed :
    staleRow.status = Status.PROCESSING ∧
    staleRow.locked_at = some 0 ∧
    0 + cfg0.LOCK_TTL_SECONDS < 10000 ∧
    lock_next_event cfg0 [staleRow] 10000 = (none, [staleRow]) := by decide

/-- C4: the retry delay computed by `mark_failed` equals
`clamp(2^min(n,8) * 5, lower=10, upper=600)`; it is monotone in the
attempt count and always within the 10-second floor and 600-second cap. -/
theorem claim_C4_backoff_policy :
    (∀ n, backoff n = backoff_spec n) ∧
    (∀ n m, n ≤ m → backoff n ≤ backoff m) ∧
    (∀ n, 10 ≤ backoff n ∧ backoff n ≤ 600) := by
  refine ⟨?_, ?_, ?_⟩
  · intro n
    unfold backoff backoff_spec
    generalize (2 ^ min n 8) * 5 = x
    omega
  · intro n m h
    unfold backoff
    have h2 : 2 ^ min n 8 * 5 ≤ 2 ^ min m 8 * 5 :=
      Nat.mul_le_mul_right 5 (Nat.pow_le_pow_right (by norm_num) (by omega))
    omega
  · intro n
    unfold backoff
    omega

/-- Closed instance of C4: the backoff is monotone between attempts 2 and 5. -/
theorem claim_C4_witness : 2 ≤ 5 ∧ backoff 2 ≤ backoff 5 :=
  ⟨by decide, claim_C4_backoff_policy.2.1 2 5 (by decide)⟩

/-- An event mid-processing, as `lock_next_event` leaves it. -/
def procRow : EventRow :=
  { (mkEvent 1 "AppointmentCreated" 50) with
      status := .PROCESSING
      locked_by := some "w1"
      locked_at := some 3
      attempts := 1 }

/-- C7 counterexample: the claim says the second `mark_done` call changes
no field of the row, but the UPDATE sets `done_at=NOW()` unconditionally:
a second call at time 6 after a first call at time 5 rewrites `done_at`
(and `updated_at`), so the stores differ. -/
theorem claim_C7_counterexample :
    mark_done (mark_done [procRow] 5 1) 6 1 ≠ mark_done [procRow] 5 1 := by
  decide

/-- C7 (amended): `mark_done` sets `status=DONE`, `done_at=now` and clears
the lease fields; a second call changes nothing except refreshing
`done_at` and `updated_at` to the time of the second call, and a second
call at the same timestamp is a strict no-op. -/
theorem claim_C7_mark_done_amended (db : List EventRow) (t1 t2 eid : Nat) :
    (mark_done db t1 eid =
      db.map (fun r => if r.id = eid then
        { r with status := .DONE, done_at := some t1, locked_by := none,
                 locked_at := none, updated_at := t1 } else r)) ∧
    (mark_done (mark_done db t1 eid) t2 eid =
      (mark_done db t1 eid).map (fun r => if r.id = eid then
        { r with done_at := some t2, updated_at := t2 } else r)) ∧
    (mark_done (mark_done db t1 eid) t1 eid = mark_done db t1 eid) := by
  refine ⟨rfl, ?_, ?_⟩
  · simp only [mark_done, List.map_map]
    refine List.map_congr_left fun r _ => ?_
    by_cases h : r.id = eid <;> simp [h]
  · simp only [mark_done, List.map_map]
    refine List.map_congr_left fun r _ => ?_
    by_cases h : r.id = eid <;> simp [h]

/-- C8: an event type matching none of the known names and prefixes gets
an empty handler fan-out, the dispatch returns normally having invoked
nothing, and the worker loop finalizes the event with `mark_done` (no
error text recorded, no retry scheduled). -/
theorem claim_C8_unknown_event_ignored (ty : String)
    (h1 : ty ≠ "AppointmentCreated") (h2 : ty ≠ "AppointmentCompleted")
    (h3 : ty ≠ "CaseUpdated") (h4 : ty ≠ "CaseGenerateSummary")
    (h5 : ty ≠ "AppointmentAutoScheduleRequested")
    (h6 : ty ≠ "AppointmentMonitorTick")
    (h7 : strStartsWith ty "Inventory" = false) (h8 : ty ≠ "InventoryDailyTick")
    (h9 : strStartsWith ty "Revenue" = false) (h10 : ty ≠ "ARRankAndNotify")
    (h11 : ty ≠ "RevenueDailyTick") :
    dispatch_handlers ty = [] ∧
    (∀ fails payload, run_dispatch fails ty payload = none) ∧
    (∀ (cfg : Config) (loads : String → Except String Json)
        (fails : Handler → Json → Option String) (db : List EventRow)
        (now : Nat) (row : EventRow), row.event_type = ty →
        process_claimed_event cfg loads fails db now row = mark_done db now row.id) := by
  have hd : dispatch_handlers ty = [] := by
    simp [dispatch_handlers, h1, h2, h3, h4, h5, h6, h7, h8, h9, h10, h11]
  refine ⟨hd, ?_, ?_⟩
  · intro fails payload
    simp [run_dispatch, hd]
  · intro cfg loads fails db now row hrow
    simp [process_claimed_event, run_dispatch, hrow, hd]

/-- Closed instance of C8: the type `SomethingElse` matches no route and
is finalized as a no-op fan-out. -/
theorem claim_C8_witness :
    strStartsWith "SomethingElse" "Inventory" = false ∧
    dispatch_handlers "SomethingElse" = [] :=
  ⟨by decide,
   (claim_C8_unknown_event_ignored "SomethingElse" (by decide) (by decide)
      (by decide) (by decide) (by decide) (by decide) (by decide) (by decide)
      (by decide) (by decide) (by decide)).1⟩

/-- C9: payload parsing never raises — a null column falls back to the
empty document, an empty string likewise (Python `or` treats `""` as
falsy), and a parse error is swallowed into the empty document; the
claimed event is then dispatched with that empty payload. -/
theorem claim_C9_parse_payload_safe (loads : String → Except String Json)
    (hload : loads "\x7b\x7d" = Except.ok (Json.obj [])) :
    parse_payload loads none = Json.obj [] ∧
    parse_payload loads (some "") = Json.obj [] ∧
    (∀ s e, loads s = Except.error e → parse_payload loads (some s) = Json.obj []) ∧
    (∀ (cfg : Config) (fails : Handler → Json → Option String)
        (db : List EventRow) (now : Nat) (row : EventRow),
        parse_payload loads row.payload_json = Json.obj [] →
        process_claimed_event cfg loads fails db now row =
          match run_dispatch fails row.event_type (Json.obj []) with
          | none => mark_done db now row.id
          | some err => mark_failed cfg db now row.id err) := by
  refine ⟨?_, ?_, ?_, ?_⟩
  · simp [parse_payload, hload]
  · simp [parse_payload, hload]
  · intro s e he
    by_cases hs : s = ""
    · subst hs
      simp [parse_payload, hload]
    · simp [parse_payload, hs, he]
  · intro cfg fails db now row hp
    simp only [process_claimed_event, hp]

/-- Closed instance of C9: with a concrete `loads`, a null payload column
parses to the empty document. -/
theorem claim_C9_witness :
    loadsW "\x7b\x7d" = Except.ok (Json.obj []) ∧
    parse_payload loadsW none = Json.obj [] :=
  ⟨rfl, (claim_C9_parse_payload_safe loadsW rfl).1⟩

/-- C10: `mark_failed` on an id with no row reads `attempts = 0` and the
configured default `max_attempts` (so, whenever the default is at least 1,
it takes the retry branch), its UPDATE matches no row, and the store is
returned unchanged — no exception is raised. -/
theorem claim_C10_mark_failed_missing_row (cfg : Config) (db : List EventRow)
    (now eid : Nat) (err : String) (h : ∀ r ∈ db, r.id ≠ eid) :
    (1 ≤ cfg.MAX_EVENT_ATTEMPTS →
      mark_failed cfg db now eid err =
        db.map (fun r => if r.id = eid then
          { r with status := .NEW, last_error := some err, locked_by := none,
                   locked_at := none, available_at := now + backoff 0,
                   updated_at := now } else r)) ∧
    mark_failed cfg db now eid err = db := by
  have hf : db.find? (fun r => r.id == eid) = none := by
    rw [List.find?_eq_none]
    intro r hr
    simp [h r hr]
  constructor
  · intro hmax
    simp only [mark_failed, hf]
    rw [if_neg (by omega)]
  · simp only [mark_failed, hf]
    split <;> exact map_guard_id db eid _ h

/-- Closed instance of C10: failing a nonexistent event id leaves the
store unchanged. -/
theorem claim_C10_witness :
    (∀ r ∈ [mkEvent 1 "A" 10], r.id ≠ 2) ∧
    mark_failed cfg0 [mkEvent 1 "A" 10] 7 2 "err" = [mkEvent 1 "A" 10] :=
  ⟨by decide,
   (claim_C10_mark_failed_missing_row cfg0 [mkEvent 1 "A" 10] 7 2 "err"
      (by decide)).2⟩

/-- C2: `lock_next_event` returns `none` exactly when no row passes the
eligibility predicate, and otherwise claims one eligible row in place —
status to `PROCESSING`, `attempts` incremented by exactly 1, `locked_by`
set to this worker, `locked_at` set to now — returning the re-read updated
row while leaving every other row untouched. -/
theorem claim_C2_lock_next_event_spec (cfg : Config) (db : List EventRow)
    (now : Nat) (hnd : (db.map (fun r => r.id)).Nodup) :
    ((lock_next_event cfg db now).1 = none ↔ db.filter (isEligible cfg now) = []) ∧
    ((lock_next_event cfg db now).1 = none → (lock_next_event cfg db now).2 = db) ∧
    (∀ ret, (lock_next_event cfg db now).1 = some ret →
      ∃ e ∈ db, isEligible cfg now e = true ∧
        ret = claimRow cfg now e ∧
        ret.status = Status.PROCESSING ∧
        ret.attempts = e.attempts + 1 ∧
        ret.locked_by = some cfg.WORKER_ID ∧
        ret.locked_at = some now ∧
        (lock_next_event cfg db now).2 =
          db.map (fun x => if x.id = e.id then claimRow cfg now x else x)) := by
  rcases hsel : selectBest (db.filter (isEligible cfg now)) with _ | r
  · have hnil : db.filter (isEligible cfg now) = [] :=
      (selectBest_eq_none_iff _).mp hsel
    simp only [lock_next_event, hsel]
    simp [hnil]
  · obtain ⟨hmem, _⟩ := selectBest_spec _ r hsel
    obtain ⟨hrdb, hrel⟩ := List.mem_filter.mp hmem
    have hfind := find?_update_of_nodup db r hrdb hnd (claimRow cfg now) (fun x => rfl)
    have hl : lock_next_event cfg db now =
        (some (claimRow cfg now r),
         db.map (fun x => if x.id = r.id then claimRow cfg now x else x)) := by
      simp only [lock_next_event, hsel]
      rw [hfind]
    refine ⟨?_, ?_, ?_⟩
    · rw [hl]
      constructor
      · intro hc
        simp at hc
      · intro hc
        rw [hc] at hmem
        simp at hmem
    · intro hc
      rw [hl] at hc
      simp at hc
    · intro ret hret
      rw [hl] at hret
      have hx : claimRow cfg now r = ret := by simpa using hret
      subst hx
      exact ⟨r, hrdb, hrel, rfl, rfl, rfl, rfl, rfl, by rw [hl]⟩

/-- Closed instance of C2 on the three-event fixture. -/
theorem claim_C2_witness :
    (dbABC.map (fun r => r.id)).Nodup ∧
    ((lock_next_event cfg0 dbABC 100).1 = none ↔
      dbABC.filter (isEligible cfg0 100) = []) :=
  ⟨by decide, (claim_C2_lock_next_event_spec cfg0 dbABC 100 (by decide)).1⟩

/-- C3: `mark_failed` reads the row's current `attempts` and
`max_attempts`; when `attempts ≥ max_attempts` it marks the row `FAILED`,
records the error and clears the lease fields, otherwise it resets the row
to `NEW` with the error recorded, lease cleared, and `available_at`
deferred by `backoff(attempts)`; and a `FAILED` row never satisfies the
claim eligibility predicate again.  With `max_attempts = N` and `attempts`
reaching `k` on the k-th claim, the FAILED branch fires exactly when
`k ≥ N`, i.e. at the N-th failure. -/
theorem claim_C3_mark_failed_spec (cfg : Config) (db : List EventRow)
    (now eid : Nat) (err : String) (e : EventRow) (he : e ∈ db)
    (hid : e.id = eid) (hnd : (db.map (fun r => r.id)).Nodup)
    (hmax : 1 ≤ e.max_attempts) :
    (e.max_attempts ≤ e.attempts →
      mark_failed cfg db now eid err =
        db.map (fun r => if r.id = eid then
          { r with status := .FAILED, last_error := some err, locked_by := none,
                   locked_at := none, updated_at := now } else r)) ∧
    (e.attempts < e.max_attempts →
      mark_failed cfg db now eid err =
        db.map (fun r => if r.id = eid then
          { r with status := .NEW, last_error := some err, locked_by := none,
                   locked_at := none, available_at := now + backoff e.attempts,
                   updated_at := now } else r)) ∧
    (∀ (cfg2 : Config) (now2 : Nat) (r : EventRow),
      r.status = .FAILED → isEligible cfg2 now2 r = false) := by
  subst hid
  have hfind : db.find? (fun r => r.id == e.id) = some e :=
    find?_id_of_nodup db e he hnd
  have hm0 : (if e.max_attempts = 0 then cfg.MAX_EVENT_ATTEMPTS
      else e.max_attempts) = e.max_attempts := if_neg (by omega)
  refine ⟨?_, ?_, ?_⟩
  · intro hge
    simp only [mark_failed, hfind, hm0]
    rw [if_pos hge]
  · intro hlt
    simp only [mark_failed, hfind, hm0]
    rw [if_neg (by omega)]
  · intro cfg2 now2 r hr
    simp [isEligible, hr]

/-- An event whose attempts have reached its `max_attempts`. -/
def exhaustedRow : EventRow :=
  { (mkEvent 1 "A" 10) with
      status := .PROCESSING
      attempts := 8
      locked_by := some "w1"
      locked_at := some 40 }

/-- Closed instance of C3: the 8th failure of an event with
`max_attempts = 8` is terminal. -/
theorem claim_C3_witness :
    exhaustedRow.max_attempts ≤ exhaustedRow.attempts ∧
    mark_failed cfg0 [exhaustedRow] 50 1 "boom" =
      [exhaustedRow].map (fun r => if r.id = 1 then
        { r with status := .FAILED, last_error := some "boom", locked_by := none,
                 locked_at := none, updated_at := 50 } else r) :=
  ⟨by decide,
   (claim_C3_mark_failed_spec cfg0 [exhaustedRow] 50 1 "boom" exhaustedRow
      (by decide) (by decide) (by decide) (by decide)).1 (by decide)⟩

/-- C5: a successful claim picks an eligible row minimal in the
lexicographic order (priority ascending, then id ascending) among all
eligible rows; concretely, with A(priority 10), B(priority 10),
C(priority 5) enqueued in that order, successive claims return C, then A,
then B. -/
theorem claim_C5_priority_order (cfg : Config) (db : List EventRow) (now : Nat)
    (hnd : (db.map (fun r => r.id)).Nodup) (ret : EventRow)
    (hret : (lock_next_event cfg db now).1 = some ret) :
    (∃ e ∈ db, isEligible cfg now e = true ∧ ret = claimRow cfg now e ∧
      ∀ x ∈ db, isEligible cfg now x = true →
        e.priority < x.priority ∨ (e.priority = x.priority ∧ e.id ≤ x.id)) ∧
    ((lock_next_event cfg0 dbABC 100).1.map (fun r => r.id) = some 3 ∧
     (lock_next_event cfg0 (lock_next_event cfg0 dbABC 100).2 100).1.map
        (fun r => r.id) = some 1 ∧
     (lock_next_event cfg0
        (lock_next_event cfg0 (lock_next_event cfg0 dbABC 100).2 100).2
        100).1.map (fun r => r.id) = some 2) := by
  constructor
  · rcases hsel : selectBest (db.filter (isEligible cfg now)) with _ | r
    · simp [lock_next_event, hsel] at hret
    · obtain ⟨hmem, hall⟩ := selectBest_spec _ r hsel
      obtain ⟨hrdb, hrel⟩ := List.mem_filter.mp hmem
      have hfind := find?_update_of_nodup db r hrdb hnd (claimRow cfg now) (fun x => rfl)
      have hx : claimRow cfg now r = ret := by
        simp [lock_next_event, hsel, hfind] at hret
        exact hret
      subst hx
      refine ⟨r, hrdb, hrel, rfl, ?_⟩
      intro x hxdb hxel
      have hbf := hall x (List.mem_filter.mpr ⟨hxdb, hxel⟩)
      rw [better_eq_false_iff] at hbf
      exact hbf
  · exact ⟨by decide, by decide, by decide⟩

/-- Closed instance of C5: on the fixture the first claim takes C, the
minimal eligible row. -/
theorem claim_C5_witness :
    (dbABC.map (fun r => r.id)).Nodup ∧
    (lock_next_event cfg0 dbABC 100).1 = some (claimRow cfg0 100 (mkEvent 3 "C" 5)) ∧
    (∃ e ∈ dbABC, isEligible cfg0 100 e = true ∧
      claimRow cfg0 100 (mkEvent 3 "C" 5) = claimRow cfg0 100 e ∧
      ∀ x ∈ dbABC, isEligible cfg0 100 x = true →
        e.priority < x.priority ∨ (e.priority = x.priority ∧ e.id ≤ x.id)) :=
  ⟨by decide, by decide,
   (claim_C5_priority_order cfg0 dbABC 100 (by decide)
      (claimRow cfg0 100 (mkEvent 3 "C" 5)) (by decide)).1⟩

/-- C6: an idempotency-lock claim fails exactly when an unexpired row for
the key exists; starting with the key free, the first claim succeeds, a
second claim strictly inside the TTL window fails, and a claim at or after
the window's end re-arms the lock and succeeds. -/
theorem claim_C6_idem_claim_spec (locks : List LockRow) (key w1 w2 : String)
    (ttl t1 t2 : Nat) (hnd : (locks.map (fun l => l.lock_key)).Nodup) :
    (∀ now worker, (idem_claim locks now key worker ttl).1 = false ↔
        ∃ l ∈ locks, l.lock_key = key ∧ now < l.expires_at) ∧
    ((∀ l ∈ locks, l.lock_key ≠ key) →
      (idem_claim locks t1 key w1 ttl).1 = true ∧
      (t2 < t1 + ttl →
        (idem_claim (idem_claim locks t1 key w1 ttl).2 t2 key w2 ttl).1 = false) ∧
      (t1 + ttl ≤ t2 →
        (idem_claim (idem_claim locks t1 key w1 ttl).2 t2 key w2 ttl).1 = true)) := by
  constructor
  · intro now worker
    rcases hfind : locks.find? (fun l => l.lock_key == key) with _ | l
    · simp only [idem_claim, hfind]
      constructor
      · intro hc
        simp at hc
      · rintro ⟨l, hl, hkey, _⟩
        have := List.find?_eq_none.mp hfind l hl
        simp [hkey] at this
    · have hl_mem := List.mem_of_find?_eq_some hfind
      have hl_key : l.lock_key = key := by simpa using List.find?_some hfind
      simp only [idem_claim, hfind]
      by_cases hactive : now < l.expires_at
      · rw [if_pos hactive]
        exact ⟨fun _ => ⟨l, hl_mem, hl_key, hactive⟩, fun _ => rfl⟩
      · rw [if_neg hactive]
        constructor
        · intro hc
          simp at hc
        · rintro ⟨l2, hl2, hk2, hact2⟩
          have : l2 = l :=
            List.inj_on_of_nodup_map hnd hl2 hl_mem (hk2.trans hl_key.symm)
          subst this
          exact absurd hact2 hactive
  · intro hfree
    have hnone : locks.find? (fun l => l.lock_key == key) = none := by
      rw [List.find?_eq_none]
      intro l hl
      simp [hfree l hl]
    have h1 : idem_claim locks t1 key w1 ttl =
        (true, locks ++ [{ lock_key := key, locked_by := w1,
                           expires_at := t1 + ttl, updated_at := t1 }]) := by
      simp [idem_claim, hnone]
    set S := (idem_claim locks t1 key w1 ttl).2 with hS
    have hfind2 : S.find? (fun l => l.lock_key == key) =
        some { lock_key := key, locked_by := w1,
               expires_at := t1 + ttl, updated_at := t1 } := by
      rw [hS, h1]
      rw [List.find?_append, hnone]
      simp
    refine ⟨by rw [h1], ?_, ?_⟩
    · intro hwin
      simp only [idem_claim, hfind2]
      simp [hwin]
    · intro hafter
      simp only [idem_claim, hfind2]
      simp [show ¬ t2 < t1 + ttl by omega]

/-- Closed instance of C6: claims on a free key at times 0, 30 and 60 with
a 60-second TTL yield true, false, true. -/
theorem claim_C6_witness :
    (([] : List LockRow).map (fun l => l.lock_key)).Nodup ∧
    (idem_claim [] 0 "cron:x" "w1" 60).1 = true ∧
    (idem_claim (idem_claim [] 0 "cron:x" "w1" 60).2 30 "cron:x" "w2" 60).1 = false ∧
    (idem_claim (idem_claim [] 0 "cron:x" "w1" 60).2 60 "cron:x" "w2" 60).1 = true :=
  ⟨by decide,
   ((claim_C6_idem_claim_spec [] "cron:x" "w1" "w2" 60 0 30 (by decide)).2
      (by decide)).1,
   ((claim_C6_idem_claim_spec [] "cron:x" "w1" "w2" 60 0 30 (by decide)).2
      (by decide)).2.1 (by decide),
   ((claim_C6_idem_claim_spec [] "cron:x" "w1" "w2" 60 0 60 (by decide)).2
      (by decide)).2.2 (by decide)⟩

end DentalAgents
